import Mathlib

/-!
Shallow embedding of the `gbuf` ring-buffer family (`ringbuffer.go`,
`ringfilter.go`) and verification of its specification claims.

Modelling conventions:
* Go slices are Lean `List`s; a caller-supplied destination slice is assumed
  to have capacity equal to its length, so re-slicing `p[:k]` is legal in Go
  exactly when `k ≤ p.length` here.
* Machine `int`s hold small cursor values, so they are modelled as `Nat`
  (constructor sizes as `Int`, since Go coerces non-positive sizes).
* Go `copy(dst, src)` copies `min |dst| |src|` elements and returns the count.
* Operations that can panic in Go (out-of-range slice bounds, index out of
  range, modulo by zero) return `Option`, with `none` for the panic.
* Go `error` values are the inductive `GoError`; a `nil` error is `none`.
-/

/-- Errors that the embedded code can produce or compare against.
`eof` stands for `io.EOF`; the two ring errors mirror the variables declared
at the top of `ringbuffer.go`; `filterErr` stands for an arbitrary caller
error returned by a `RingFilter` callback. -/
inductive GoError where
  | eof
  | ringNegativePosition
  | ringInvalidWhence
  | filterErr (code : Nat)
deriving DecidableEq

/-- Go's `copy(l[a:b], src)`: overwrite the region `[a, b)` of `l` with the
first `min (b-a) |src|` elements of `src`; return the new list and the count
copied.  Faithful to Go when `a ≤ b ≤ l.length` (which holds at every call
site under the cursor bounds established below). -/
def goCopy {T : Type} (l : List T) (a b : Nat) (src : List T) : List T × Nat :=
  let k := min (b - a) src.length
  (l.take a ++ src.take k ++ l.drop (a + k), k)

/-- Go's slice expression `l[a:b]` as a value (no aliasing needed: every use
below reads it immediately after the writes it depends on). -/
def goSlice {T : Type} (l : List T) (a b : Nat) : List T :=
  (l.drop a).take (b - a)

/-- The `RingBuffer[T]` struct of `ringbuffer.go`: a write cursor, a read
cursor and the fixed backing storage. -/
structure RingBuffer (T : Type) where
  write : Nat
  read  : Nat
  items : List T
deriving DecidableEq

/-- Result of a write-side operation: the updated buffer, the count `n` and
the returned error. -/
structure WriteResult (T : Type) where
  rb  : RingBuffer T
  n   : Nat
  err : Option GoError
deriving DecidableEq

/-- Result of `RingBuffer.Read`: the updated buffer, the caller's destination
slice after the copies, the count `n` and the returned error. -/
structure ReadResult (T : Type) where
  rb   : RingBuffer T
  dest : List T
  n    : Nat
  err  : Option GoError
deriving DecidableEq

/-- The `defaultBufferSize` constant of `ringbuffer.go`. -/
def defaultBufferSize : Nat := 256

namespace RingBuffer

variable {T : Type}

/-- `NewRingBuffer` from `ringbuffer.go`: a non-positive size is replaced by
the default; storage starts as zero values (`default`). -/
def NewRingBuffer (T : Type) [Inhabited T] (size : Int) : RingBuffer T :=
  let n := if size ≤ 0 then defaultBufferSize else size.toNat
  { write := 0, read := 0, items := List.replicate n default }

/-- `Cap` from `ringbuffer.go`: the length of the backing storage. -/
def Cap (r : RingBuffer T) : Nat := r.items.length

/-- `Len` from `ringbuffer.go`: `write - read` when `read < write`, otherwise
`len(items) - (read - write)`.  There is no fullness flag in the struct, so
`read == write` falls into the second branch and reports a full buffer. -/
def Len (r : RingBuffer T) : Nat :=
  if r.read < r.write then r.write - r.read
  else r.items.length - (r.read - r.write)

/-- `writeWithinBounds` from `ringbuffer.go`: copy `p` into `items[write:end]`
and set `write := end`.  The read cursor is not touched.  Always returns a
`nil` error. -/
def writeWithinBounds (r : RingBuffer T) (p : List T) (e : Nat) : WriteResult T :=
  let c := goCopy r.items r.write e p
  ⟨{ r with items := c.1, write := e }, c.2, none⟩

/-- `writeWrapped` from `ringbuffer.go`: reduce `end` modulo the capacity,
copy the head of `p` into `items[write:len]`, the rest into `items[:end]`,
set `write := end`, and pull `read` up to `write` only when `end > read`.
Always returns a `nil` error. -/
def writeWrapped (r : RingBuffer T) (p : List T) (e0 : Nat) : WriteResult T :=
  let e := e0 % r.items.length
  let c1 := goCopy r.items r.write r.items.length p
  let c2 := goCopy c1.1 0 e (p.drop c1.2)
  let rd := if e > r.read then e else r.read
  ⟨{ r with items := c2.1, write := e, read := rd }, c1.2 + c2.2, none⟩

/-- `writeWithinCapacity` from `ringbuffer.go`: dispatch on whether
`write + len(p)` stays within the storage. -/
def writeWithinCapacity (r : RingBuffer T) (p : List T) : WriteResult T :=
  let e := r.write + p.length
  if e ≤ r.items.length then writeWithinBounds r p e
  else writeWrapped r p e

/-- `Write` from `ringbuffer.go`: inputs shorter than the capacity go through
`writeWithinCapacity`; otherwise only the last `len(items)` elements of `p`
are copied over the whole storage and `read` is set to `write`.  The returned
error is always `nil`. -/
def Write (r : RingBuffer T) (p : List T) : WriteResult T :=
  if p.length < r.items.length then writeWithinCapacity r p
  else
    let c := goCopy r.items 0 r.items.length (p.drop (p.length - r.items.length))
    ⟨{ r with items := c.1, read := r.write }, r.items.length, none⟩

/-- `WriteItem` from `ringbuffer.go`: advance `pos := (write+1) % len`, move
`read` in lockstep when `write == read`, then store the item at the new
`write`.  `none` models the modulo-by-zero panic on an empty storage, which
`NewRingBuffer` never produces.  The returned error is otherwise `nil`. -/
def WriteItem (r : RingBuffer T) (item : T) : Option (RingBuffer T) :=
  if r.items.length = 0 then none
  else
    let pos := (r.write + 1) % r.items.length
    let rd := if r.write = r.read then pos else r.read
    some { r with read := rd, write := pos, items := r.items.set pos item }

/-- `Read` from `ringbuffer.go`.  When `read ≥ write` it copies
`items[read:len]` into `p[:size]` (a panic, hence `none`, when
`size > len(p)`), zeroes `read`, returns early when `p` is exhausted, then
copies `items[:write]` into `p[n:n+write]` (again `none` on a slice-bound
panic) and sets `read := write % len` (`none` models the modulo-by-zero panic
for empty storage).  When `read < write` it copies `items[read:write]` into
`p[:ringLn]` (`none` when `ringLn > len(p)`) and advances `read`.  No branch
ever returns an `io.EOF` error. -/
def Read (r : RingBuffer T) (p : List T) : Option (ReadResult T) :=
  let ln := p.length
  let ringLn := r.Len
  if r.write ≤ r.read then
    let size := r.items.length - r.read
    if size > p.length then none
    else
      let c1 := goCopy p 0 size (r.items.drop r.read)
      if c1.2 ≥ ln then some ⟨{ r with read := 0 }, c1.1, c1.2, none⟩
      else if c1.2 + r.write > p.length then none
      else if r.items.length = 0 then none
      else
        let c2 := goCopy c1.1 c1.2 (c1.2 + r.write) (r.items.take r.write)
        some ⟨{ r with read := r.write % r.items.length }, c2.1, c1.2 + c2.2, none⟩
  else
    if ringLn > p.length then none
    else
      let c := goCopy p 0 ringLn (goSlice r.items r.read r.write)
      let n := if ln < c.2 then ln else c.2
      some ⟨{ r with read := r.read + n }, c.1, n, none⟩

/-- `ReadItem` from `ringbuffer.go`: return `items[read]` (`none` models the
index-out-of-range panic) and advance `read` modulo the capacity.  The
returned error is otherwise always `nil`, even on an empty buffer. -/
def ReadItem (r : RingBuffer T) : Option (RingBuffer T × T) :=
  if h : r.read < r.items.length then
    some ({ r with read := (r.read + 1) % r.items.length }, r.items.get ⟨r.read, h⟩)
  else none

/-- `Reset` from `ringbuffer.go`: zero both cursors and overwrite every slot
with the zero value of `T`. -/
def Reset [Inhabited T] (r : RingBuffer T) : RingBuffer T :=
  { write := 0, read := 0, items := r.items.map (fun _ => (default : T)) }

/-- `Seek` from `ringbuffer.go` as it stands in the source: the body is
commented out (`TODO: refactor`), the arguments are discarded and the zero
`abs` with a `nil` error is returned; the buffer is untouched. -/
def Seek (r : RingBuffer T) (offset : Int) (whence : Int) : RingBuffer T × Int × Option GoError :=
  let _ := offset
  let _ := whence
  (r, 0, none)

/-- `ReadFrom` from `ringbuffer.go`, driven by a script of producer
responses: each response is the data the producer deposits into
`items[write:len]` together with the error it reports (`num` is the length of
the data).  The loop adds `num` to the total, advances
`write := (write + num) % len` (`none` models the modulo-by-zero panic),
returns a `nil` error on `io.EOF`, propagates any other producer error, and
otherwise loops; an exhausted script models a producer that never terminates
the loop, hence `none`. -/
def ReadFrom (r : RingBuffer T) : List (List T × Option GoError) → Option (WriteResult T)
  | [] => none
  | (data, e) :: rest =>
    if r.items.length = 0 then none
    else
      let items' := (goCopy r.items r.write r.items.length data).1
      let num := data.length
      let r' := { r with items := items', write := (r.write + num) % r.items.length }
      if e = some GoError.eof then some ⟨r', num, none⟩
      else
        match e with
        | some err => some ⟨r', num, some err⟩
        | none =>
          match ReadFrom r' rest with
          | none => none
          | some res => some ⟨res.rb, num + res.n, res.err⟩

end RingBuffer

/-- The `RingFilter[T]` struct of `ringfilter.go` (the cursor-based version
the specification describes): cursors, the callback `fn` and the storage. -/
structure RingFilter (T : Type) where
  write : Nat
  read  : Nat
  fn    : List T → Option GoError
  items : List T

/-- Result of a `RingFilter` write-side operation: the updated filter, the
count `n`, the returned error, and the list of arguments the callback was
invoked with, in call order (instrumentation of the `r.fn(...)` call sites;
the code itself is otherwise mirrored verbatim). -/
structure FWriteResult (T : Type) where
  rf   : RingFilter T
  n    : Nat
  err  : Option GoError
  segs : List (List T)

namespace RingFilter

variable {T : Type}

/-- `NewRingFilter` from `ringfilter.go`: non-positive sizes fall back to the
default, a missing callback to the no-op `unimplementedFilter`. -/
def NewRingFilter (T : Type) [Inhabited T] (size : Int)
    (fn : Option (List T → Option GoError)) : RingFilter T :=
  let n := if size ≤ 0 then defaultBufferSize else size.toNat
  { write := 0, read := 0,
    fn := fn.getD (fun _ => none),
    items := List.replicate n default }

/-- `Cap` from `ringfilter.go`. -/
def Cap (r : RingFilter T) : Nat := r.items.length

/-- `Len` from `ringfilter.go` (same shape as the `RingBuffer` version). -/
def Len (r : RingFilter T) : Nat :=
  if r.read < r.write then r.write - r.read
  else r.items.length - (r.read - r.write)

/-- `writeWithinBounds` from `ringfilter.go`: copy `p` into
`items[write:end]`, invoke the callback on that freshly written sub-range,
set `write := end` and return the callback's error (whether `nil` or not). -/
def writeWithinBounds (r : RingFilter T) (p : List T) (e : Nat) : FWriteResult T :=
  let c := goCopy r.items r.write e p
  let seg := goSlice c.1 r.write e
  ⟨{ r with items := c.1, write := e }, c.2, r.fn seg, [seg]⟩

/-- `writeWrapped` from `ringfilter.go`: copy the head of `p` into
`items[write:len]`, invoke the callback on it, copy the rest into
`items[:end]`, and return the first callback error if any — in that case
`write` and `read` are left untouched and the second callback is skipped.
Otherwise invoke the callback on `items[:end]`, set `write := end`, pull
`read` up when `end > read`, and return the second callback's error. -/
def writeWrapped (r : RingFilter T) (p : List T) (e0 : Nat) : FWriteResult T :=
  let e := e0 % r.items.length
  let c1 := goCopy r.items r.write r.items.length p
  let seg1 := goSlice c1.1 r.write r.items.length
  let err1 := r.fn seg1
  let c2 := goCopy c1.1 0 e (p.drop c1.2)
  if err1.isSome then ⟨{ r with items := c2.1 }, c1.2 + c2.2, err1, [seg1]⟩
  else
    let seg2 := goSlice c2.1 0 e
    let err2 := r.fn seg2
    let rd := if e > r.read then e else r.read
    ⟨{ r with items := c2.1, write := e, read := rd }, c1.2 + c2.2, err2, [seg1, seg2]⟩

/-- `writeWithinCapacity` from `ringfilter.go`. -/
def writeWithinCapacity (r : RingFilter T) (p : List T) : FWriteResult T :=
  let e := r.write + p.length
  if e ≤ r.items.length then writeWithinBounds r p e
  else writeWrapped r p e

/-- `Write` from `ringfilter.go`: inputs shorter than the capacity go through
`writeWithinCapacity`; otherwise the last `len(items)` elements of `p` fill
the storage, `read` is set to `write`, and the callback is invoked with the
whole input `p` (the source comments this: "The filter func will consume the
entire input buffer").  On a callback error the count returned is the
never-assigned `n`, i.e. `0`. -/
def Write (r : RingFilter T) (p : List T) : FWriteResult T :=
  if p.length < r.items.length then writeWithinCapacity r p
  else
    let c := goCopy r.items 0 r.items.length (p.drop (p.length - r.items.length))
    let r' := { r with items := c.1, read := r.write }
    let e := r.fn p
    if e.isSome then ⟨r', 0, e, [p]⟩
    else ⟨r', r.items.length, none, [p]⟩

/-- `ReadFrom` from `ringfilter.go`, driven by a script of producer responses
as in `RingBuffer.ReadFrom`.  After each producer read the callback is
invoked with `items[write : write+num]` (`none` models the slice-bound panic
when `num` exceeds the free tail); when the callback reports an error the
loop returns — but it returns the producer's error `err`, not the callback's
`errFilter`.  Otherwise `write` advances modulo the capacity, `io.EOF` ends
the loop with a `nil` error and any other producer error is propagated. -/
def ReadFrom (r : RingFilter T) : List (List T × Option GoError) → Option (FWriteResult T)
  | [] => none
  | (data, e) :: rest =>
    if r.items.length = 0 then none
    else
      let items' := (goCopy r.items r.write r.items.length data).1
      let num := data.length
      if r.write + num > r.items.length then none
      else
        let seg := goSlice items' r.write (r.write + num)
        let errFilter := r.fn seg
        if errFilter.isSome then some ⟨{ r with items := items' }, num, e, [seg]⟩
        else
          let r' := { r with items := items', write := (r.write + num) % r.items.length }
          if e = some GoError.eof then some ⟨r', num, none, [seg]⟩
          else
            match e with
            | some err => some ⟨r', num, some err, [seg]⟩
            | none =>
              match ReadFrom r' rest with
              | none => none
              | some res => some ⟨res.rf, num + res.n, res.err, seg :: res.segs⟩

end RingFilter

/-- One observable operation of `RingBuffer`, as listed in the cursor-bounds
claim: `Write`, `WriteItem`, `Read`, `ReadItem`, `ReadFrom` (under any
producer script) and `Reset`.  Partial operations step only when they return
without panicking. -/
inductive Step {T : Type} [Inhabited T] : RingBuffer T → RingBuffer T → Prop where
  | write (r : RingBuffer T) (p : List T) : Step r (RingBuffer.Write r p).rb
  | writeItem (r r' : RingBuffer T) (x : T) :
      RingBuffer.WriteItem r x = some r' → Step r r'
  | read (r : RingBuffer T) (p : List T) (res : ReadResult T) :
      RingBuffer.Read r p = some res → Step r res.rb
  | readItem (r : RingBuffer T) (res : RingBuffer T × T) :
      RingBuffer.ReadItem r = some res → Step r res.1
  | readFrom (r : RingBuffer T) (script : List (List T × Option GoError))
      (res : WriteResult T) :
      RingBuffer.ReadFrom r script = some res → Step r res.rb
  | reset (r : RingBuffer T) : Step r (RingBuffer.Reset r)

/-- States reachable from construction by any sequence of operations. -/
inductive Reachable {T : Type} [Inhabited T] : RingBuffer T → Prop where
  | base (size : Int) : Reachable (RingBuffer.NewRingBuffer T size)
  | step {r r' : RingBuffer T} : Reachable r → Step r r' → Reachable r'

/-- The cursor bounds the code actually maintains: positive capacity and both
cursors at most the capacity (the end position `capacity` itself included). -/
def Bounded {T : Type} (r : RingBuffer T) : Prop :=
  1 ≤ r.items.length ∧ r.read ≤ r.items.length ∧ r.write ≤ r.items.length

theorem goCopy_fst_length {T : Type} (l : List T) (a b : Nat) (src : List T)
    (hab : a ≤ b) (hb : b ≤ l.length) : ((goCopy l a b src).1).length = l.length := by
  simp only [goCopy, List.length_append, List.length_take, List.length_drop]
  have hk1 : min (b - a) src.length ≤ b - a := Nat.min_le_left _ _
  have hk2 : min (b - a) src.length ≤ src.length := Nat.min_le_right _ _
  omega

theorem bounded_Write {T : Type} (r : RingBuffer T) (p : List T) (h : Bounded r) :
    Bounded (RingBuffer.Write r p).rb := by
  obtain ⟨h1, h2, h3⟩ := h
  unfold Bounded
  simp only [RingBuffer.Write, RingBuffer.writeWithinCapacity,
    RingBuffer.writeWithinBounds, RingBuffer.writeWrapped]
  split
  · split
    · next hin =>
      dsimp only
      rw [goCopy_fst_length r.items r.write (r.write + p.length) p
        (Nat.le_add_right _ _) hin]
      omega
    · next hout =>
      dsimp only
      have hmod : (r.write + p.length) % r.items.length < r.items.length :=
        Nat.mod_lt _ (by omega)
      have hl1 : ((goCopy r.items r.write r.items.length p).1).length = r.items.length :=
        goCopy_fst_length _ _ _ _ h3 (Nat.le_refl _)
      have hl2 : ((goCopy (goCopy r.items r.write r.items.length p).1 0
          ((r.write + p.length) % r.items.length)
          (p.drop (goCopy r.items r.write r.items.length p).2)).1).length
          = r.items.length := by
        rw [goCopy_fst_length _ _ _ _ (Nat.zero_le _) (by rw [hl1]; omega)]
        exact hl1
      refine ⟨by omega, ?_, by omega⟩
      split <;> omega
  · dsimp only
    have hl : ((goCopy r.items 0 r.items.length
        (p.drop (p.length - r.items.length))).1).length = r.items.length :=
      goCopy_fst_length _ _ _ _ (Nat.zero_le _) (Nat.le_refl _)
    omega

theorem bounded_WriteItem {T : Type} (r r' : RingBuffer T) (x : T) (h : Bounded r)
    (heq : RingBuffer.WriteItem r x = some r') : Bounded r' := by
  obtain ⟨h1, h2, h3⟩ := h
  simp only [RingBuffer.WriteItem] at heq
  split at heq
  · exact absurd heq (by simp)
  · next h0 =>
    have hmod : (r.write + 1) % r.items.length < r.items.length :=
      Nat.mod_lt _ (by omega)
    cases heq
    refine ⟨by simp [List.length_set]; omega, ?_, ?_⟩ <;>
      simp only [List.length_set]
    · split <;> omega
    · omega

theorem bounded_Read {T : Type} (r : RingBuffer T) (p : List T) (res : ReadResult T)
    (h : Bounded r) (heq : RingBuffer.Read r p = some res) : Bounded res.rb := by
  obtain ⟨h1, h2, h3⟩ := h
  simp only [RingBuffer.Read] at heq
  split at heq
  · split at heq
    · exact absurd heq (by simp)
    · split at heq
      · cases heq
        exact ⟨h1, Nat.zero_le _, h3⟩
      · split at heq
        · exact absurd heq (by simp)
        · split at heq
          · exact absurd heq (by simp)
          · next h0 =>
            cases heq
            exact ⟨h1, Nat.le_of_lt (Nat.mod_lt _ (by omega)), h3⟩
  · next hlt =>
    split at heq
    · exact absurd heq (by simp)
    · next hguard =>
      cases heq
      refine ⟨h1, ?_, h3⟩
      simp only
      have hsl : (goSlice r.items r.read r.write).length
          = min (r.write - r.read) (r.items.length - r.read) := by
        simp [goSlice, List.length_take, List.length_drop]
      have hc2 : (goCopy p 0 r.Len (goSlice r.items r.read r.write)).2
          = min (r.Len - 0) (goSlice r.items r.read r.write).length := rfl
      have hlen : r.Len = r.write - r.read := by
        simp only [RingBuffer.Len]
        rw [if_pos (by omega)]
      split
      · omega
      · next hge =>
        rw [hc2, hsl, hlen] at hge ⊢
        have := Nat.min_le_left (r.write - r.read - 0)
          (min (r.write - r.read) (r.items.length - r.read))
        omega

theorem bounded_ReadItem {T : Type} (r : RingBuffer T) (res : RingBuffer T × T)
    (h : Bounded r) (heq : RingBuffer.ReadItem r = some res) : Bounded res.1 := by
  obtain ⟨h1, h2, h3⟩ := h
  simp only [RingBuffer.ReadItem] at heq
  split at heq
  · cases heq
    exact ⟨h1, Nat.le_of_lt (Nat.mod_lt _ (by omega)), h3⟩
  · exact absurd heq (by simp)

theorem bounded_ReadFrom {T : Type} :
    ∀ (script : List (List T × Option GoError)) (r : RingBuffer T) (res : WriteResult T),
      Bounded r → RingBuffer.ReadFrom r script = some res → Bounded res.rb := by
  intro script
  induction script with
  | nil =>
    intro r res h heq
    exact absurd heq (by simp [RingBuffer.ReadFrom])
  | cons hd tl ih =>
    intro r res h heq
    obtain ⟨h1, h2, h3⟩ := h
    obtain ⟨data, e⟩ := hd
    simp only [RingBuffer.ReadFrom] at heq
    split at heq
    · exact absurd heq (by simp)
    · next h0 =>
      have hl : ((goCopy r.items r.write r.items.length data).1).length = r.items.length :=
        goCopy_fst_length _ _ _ _ h3 (Nat.le_refl _)
      have hb' : Bounded { r with
          items := (goCopy r.items r.write r.items.length data).1,
          write := (r.write + data.length) % r.items.length } := by
        refine ⟨by simp [hl]; omega, by simp [hl]; omega, ?_⟩
        simp only [hl]
        exact Nat.le_of_lt (Nat.mod_lt _ (by omega))
      split at heq
      · cases heq
        exact hb'
      · split at heq
        · cases heq
          exact hb'
        · split at heq
          · exact absurd heq (by simp)
          · next res2 hrec =>
            cases heq
            exact ih _ res2 hb' hrec

theorem bounded_Reset {T : Type} [Inhabited T] (r : RingBuffer T) (h : Bounded r) :
    Bounded (RingBuffer.Reset r) := by
  obtain ⟨h1, _, _⟩ := h
  refine ⟨?_, by simp [RingBuffer.Reset], by simp [RingBuffer.Reset]⟩
  simp [RingBuffer.Reset, List.length_map]
  omega

theorem bounded_step {T : Type} [Inhabited T] {r r' : RingBuffer T}
    (h : Bounded r) (hs : Step r r') : Bounded r' := by
  cases hs with
  | write p => exact bounded_Write _ p h
  | writeItem r' x heq => exact bounded_WriteItem _ r' x h heq
  | read p res heq => exact bounded_Read _ p res h heq
  | readItem res heq => exact bounded_ReadItem _ res h heq
  | readFrom script res heq => exact bounded_ReadFrom script _ res h heq
  | reset => exact bounded_Reset _ h

theorem bounded_NewRingBuffer {T : Type} [Inhabited T] (size : Int) :
    Bounded (RingBuffer.NewRingBuffer T size) := by
  simp only [RingBuffer.NewRingBuffer, Bounded, List.length_replicate]
  refine ⟨?_, by omega, by omega⟩
  split
  · simp [defaultBufferSize]
  · next hpos => omega

theorem reachable_bounded {T : Type} [Inhabited T] {r : RingBuffer T}
    (h : Reachable r) : Bounded r := by
  induction h with
  | base size => exact bounded_NewRingBuffer size
  | step _ hs ih => exact bounded_step ih hs

/-- The ring slots a write of `k` items starting at the current write cursor
covers, in write order. -/
def coveredSlots {T : Type} (r : RingBuffer T) (k : Nat) : List Nat :=
  (List.range k).map (fun i => (r.write + i) % r.items.length)

/-- The span of a `k`-item write reaches or passes the read cursor: the slot
the read cursor points at is among the covered slots. -/
def spanReachesRead {T : Type} (r : RingBuffer T) (k : Nat) : Prop :=
  r.read ∈ coveredSlots r k

instance {T : Type} (r : RingBuffer T) (k : Nat) : Decidable (spanReachesRead r k) := by
  unfold spanReachesRead
  infer_instance

/-- Claim C1 is false on the code: in the reachable state
`write = 1, read = 2, items = [16, 12, 13, 14, 15]` (capacity 5, four unread
items), the 3-item write `[20, 21, 22]` stays within bounds, its span
`{1, 2, 3}` covers the read cursor `2` and so overwrites unread data, yet
`writeWithinBounds` never adjusts `read`: afterwards `read = 2 ≠ 4 = write`,
contradicting "the read cursor equals the new write cursor". -/
theorem c1_span_overwrite_counterexample :
    Reachable ({ write := 1, read := 2, items := [16, 12, 13, 14, 15] } : RingBuffer Nat) ∧
    ([20, 21, 22] : List Nat).length <
      ({ write := 1, read := 2, items := [16, 12, 13, 14, 15] } : RingBuffer Nat).items.length ∧
    RingBuffer.Len ({ write := 1, read := 2, items := [16, 12, 13, 14, 15] } : RingBuffer Nat) ≠ 0 ∧
    spanReachesRead ({ write := 1, read := 2, items := [16, 12, 13, 14, 15] } : RingBuffer Nat) 3 ∧
    (RingBuffer.Write ({ write := 1, read := 2, items := [16, 12, 13, 14, 15] } : RingBuffer Nat)
        [20, 21, 22]).err = none ∧
    (RingBuffer.Write ({ write := 1, read := 2, items := [16, 12, 13, 14, 15] } : RingBuffer Nat)
        [20, 21, 22]).rb.read ≠
      (RingBuffer.Write ({ write := 1, read := 2, items := [16, 12, 13, 14, 15] } : RingBuffer Nat)
        [20, 21, 22]).rb.write := by
  have h0 : Reachable (RingBuffer.NewRingBuffer Nat 5) := Reachable.base 5
  have h1 : Reachable (RingBuffer.Write (RingBuffer.NewRingBuffer Nat 5) [11, 12, 13, 14]).rb :=
    h0.step (Step.write _ _)
  have h2 : Reachable (RingBuffer.Write
      (RingBuffer.Write (RingBuffer.NewRingBuffer Nat 5) [11, 12, 13, 14]).rb [15, 16]).rb :=
    h1.step (Step.write _ _)
  have h3 : RingBuffer.ReadItem (RingBuffer.Write
      (RingBuffer.Write (RingBuffer.NewRingBuffer Nat 5) [11, 12, 13, 14]).rb [15, 16]).rb =
      some (({ write := 1, read := 2, items := [16, 12, 13, 14, 15] } : RingBuffer Nat), 12) := by
    decide
  have h4 : Reachable ({ write := 1, read := 2, items := [16, 12, 13, 14, 15] } : RingBuffer Nat) :=
    h2.step (Step.readItem _ _ h3)
  exact ⟨h4, by decide, by decide, by decide, by decide, by decide⟩

/-- Claim C1 amended: for a write of fewer than capacity items, the code
moves `read` up to the new `write` only in the wrapped case and only when the
wrapped end position lands strictly beyond `read`; a write that stays within
bounds never moves `read`, even when it overwrites unread data, and a
wrapped write whose end position does not pass `read` likewise leaves `read`
unchanged.  No error is returned in any of the three cases. -/
theorem c1_write_cursor_amended {T : Type} (r : RingBuffer T) (p : List T)
    (hlen : p.length < r.items.length) :
    (r.write + p.length ≤ r.items.length →
      (RingBuffer.Write r p).rb.read = r.read ∧ (RingBuffer.Write r p).err = none) ∧
    (r.items.length < r.write + p.length →
      (r.write + p.length) % r.items.length > r.read →
      (RingBuffer.Write r p).rb.read = (RingBuffer.Write r p).rb.write ∧
      (RingBuffer.Write r p).err = none) ∧
    (r.items.length < r.write + p.length →
      (r.write + p.length) % r.items.length ≤ r.read →
      (RingBuffer.Write r p).rb.read = r.read ∧
      (RingBuffer.Write r p).err = none) := by
  simp only [RingBuffer.Write, if_pos hlen, RingBuffer.writeWithinCapacity]
  refine ⟨?_, ?_, ?_⟩
  · intro hin
    rw [if_pos hin]
    exact ⟨rfl, rfl⟩
  · intro hout hgt
    rw [if_neg (by omega)]
    simp only [RingBuffer.writeWrapped]
    rw [if_pos hgt]
    refine ⟨?_, ?_⟩ <;> first
      | rfl
      | trivial
  · intro hout hle
    rw [if_neg (by omega)]
    simp only [RingBuffer.writeWrapped]
    rw [if_neg (by omega)]
    refine ⟨?_, ?_⟩ <;> first
      | rfl
      | trivial

/-- Witness for `c1_write_cursor_amended` at the state
`write = 2, read = 2, items = [0, 0, 0]` and the two-item write `[7, 8]`,
which wraps with end position `1 ≤ read`, exercising the third case. -/
theorem c1_write_cursor_amended_witness :
    ([7, 8] : List Nat).length < ({ write := 2, read := 2, items := [0, 0, 0] } : RingBuffer Nat).items.length ∧
    (({ write := 2, read := 2, items := [0, 0, 0] } : RingBuffer Nat).write + ([7, 8] : List Nat).length ≤ ({ write := 2, read := 2, items := [0, 0, 0] } : RingBuffer Nat).items.length →
      (RingBuffer.Write ({ write := 2, read := 2, items := [0, 0, 0] } : RingBuffer Nat) [7, 8]).rb.read = ({ write := 2, read := 2, items := [0, 0, 0] } : RingBuffer Nat).read ∧ (RingBuffer.Write ({ write := 2, read := 2, items := [0, 0, 0] } : RingBuffer Nat) [7, 8]).err = none) ∧
    (({ write := 2, read := 2, items := [0, 0, 0] } : RingBuffer Nat).items.length < ({ write := 2, read := 2, items := [0, 0, 0] } : RingBuffer Nat).write + ([7, 8] : List Nat).length →
      (({ write := 2, read := 2, items := [0, 0, 0] } : RingBuffer Nat).write + ([7, 8] : List Nat).length) % ({ write := 2, read := 2, items := [0, 0, 0] } : RingBuffer Nat).items.length > ({ write := 2, read := 2, items := [0, 0, 0] } : RingBuffer Nat).read →
      (RingBuffer.Write ({ write := 2, read := 2, items := [0, 0, 0] } : RingBuffer Nat) [7, 8]).rb.read = (RingBuffer.Write ({ write := 2, read := 2, items := [0, 0, 0] } : RingBuffer Nat) [7, 8]).rb.write ∧ (RingBuffer.Write ({ write := 2, read := 2, items := [0, 0, 0] } : RingBuffer Nat) [7, 8]).err = none) ∧
    (({ write := 2, read := 2, items := [0, 0, 0] } : RingBuffer Nat).items.length < ({ write := 2, read := 2, items := [0, 0, 0] } : RingBuffer Nat).write + ([7, 8] : List Nat).length →
      (({ write := 2, read := 2, items := [0, 0, 0] } : RingBuffer Nat).write + ([7, 8] : List Nat).length) % ({ write := 2, read := 2, items := [0, 0, 0] } : RingBuffer Nat).items.length ≤ ({ write := 2, read := 2, items := [0, 0, 0] } : RingBuffer Nat).read →
      (RingBuffer.Write ({ write := 2, read := 2, items := [0, 0, 0] } : RingBuffer Nat) [7, 8]).rb.read = ({ write := 2, read := 2, items := [0, 0, 0] } : RingBuffer Nat).read ∧ (RingBuffer.Write ({ write := 2, read := 2, items := [0, 0, 0] } : RingBuffer Nat) [7, 8]).err = none) :=
  ⟨by decide, (c1_write_cursor_amended _ _ (by decide)).1,
    (c1_write_cursor_amended _ _ (by decide)).2.1,
    (c1_write_cursor_amended _ _ (by decide)).2.2⟩

/-- Claim C2 is false on the code: immediately after `Reset()` the cursors
are equal at zero, `Len`'s second branch fires and reports
`len(items) - 0 = capacity`, not `0`.  At capacity 3, `Len = 3 ≠ 0` while
`Cap` is unchanged. -/
theorem c2_reset_len_counterexample :
    RingBuffer.Len (RingBuffer.Reset (RingBuffer.NewRingBuffer Nat 3)) = 3 ∧
    RingBuffer.Len (RingBuffer.Reset (RingBuffer.NewRingBuffer Nat 3)) ≠ 0 ∧
    RingBuffer.Cap (RingBuffer.Reset (RingBuffer.NewRingBuffer Nat 3)) = 3 := by
  exact ⟨by decide, by decide, by decide⟩

/-- Claim C2 amended: immediately after `Reset()` the buffer reports
`Len() = Cap()` (the two-cursor `Len` has no emptiness flag and treats
`read == write` as a full buffer) and `Cap()` is unchanged. -/
theorem c2_reset_len_amended {T : Type} [Inhabited T] (r : RingBuffer T) :
    RingBuffer.Len (RingBuffer.Reset r) = RingBuffer.Cap r ∧
    RingBuffer.Cap (RingBuffer.Reset r) = RingBuffer.Cap r := by
  simp [RingBuffer.Len, RingBuffer.Reset, RingBuffer.Cap]

/-- Witness for `c2_reset_len_amended` at the fresh capacity-3 buffer. -/
theorem c2_reset_len_amended_witness :
    RingBuffer.Len (RingBuffer.Reset (RingBuffer.NewRingBuffer Nat 3)) =
      RingBuffer.Cap (RingBuffer.NewRingBuffer Nat 3) ∧
    RingBuffer.Cap (RingBuffer.Reset (RingBuffer.NewRingBuffer Nat 3)) =
      RingBuffer.Cap (RingBuffer.NewRingBuffer Nat 3) :=
  c2_reset_len_amended _

/-- Claim C3 evaluated at the failing input (capacity `N = 3`, `k = 2`):
writing the five items `10, 11, 12, 13, 14` one at a time with `WriteItem`
into a fresh buffer and then reading 3 items yields `[14, 12, 13]` — the
newest item first, because `WriteItem` advances `write` before storing and
drags `read` along in lockstep — not the claimed `[12, 13, 14]` (which is
also what the repository's own tests expect). -/
theorem c3_writeItem_wrap_eval :
    ((((((RingBuffer.WriteItem (RingBuffer.NewRingBuffer Nat 3) 10).bind
      (fun b => RingBuffer.WriteItem b 11)).bind
      (fun b => RingBuffer.WriteItem b 12)).bind
      (fun b => RingBuffer.WriteItem b 13)).bind
      (fun b => RingBuffer.WriteItem b 14)).bind
      (fun b => RingBuffer.Read b [0, 0, 0])).map (fun t => (t.dest, t.n)) =
      some ([14, 12, 13], 3) ∧
    ([14, 12, 13] : List Nat) ≠ [12, 13, 14] := by
  exact ⟨by decide, by decide⟩

theorem goCopy_snd {T : Type} (l : List T) (a b : Nat) (src : List T) :
    (goCopy l a b src).2 = min (b - a) src.length := rfl

theorem goSlice_goCopy {T : Type} (l : List T) (a b : Nat) (src : List T)
    (hab : a ≤ b) (hb : b ≤ l.length) (hsrc : b - a ≤ src.length) :
    goSlice (goCopy l a b src).1 a b = src.take (b - a) := by
  have hk : min (b - a) src.length = b - a := Nat.min_eq_left hsrc
  simp only [goSlice, goCopy, hk]
  rw [List.append_assoc]
  rw [List.drop_left' (by rw [List.length_take]; exact Nat.min_eq_left (le_trans hab hb))]
  rw [List.take_left' (by rw [List.length_take]; exact Nat.min_eq_left hsrc)]

/-- Claim C4 is false on the code: for a `RingFilter` of capacity 2 and the
3-item write `[1, 2, 3]`, the storage ends up holding the last two items
`[2, 3]`, but the callback is invoked with the entire input `[1, 2, 3]` —
`RingFilter.Write` calls `r.fn(p)` on the whole input when
`len(p) ≥ capacity`, not with the stored sub-range. -/
theorem c4_filter_full_write_counterexample :
    (RingFilter.Write (RingFilter.NewRingFilter Nat 2 (some (fun _ => none)))
        [1, 2, 3]).rf.items = [2, 3] ∧
    (RingFilter.Write (RingFilter.NewRingFilter Nat 2 (some (fun _ => none)))
        [1, 2, 3]).segs = [[1, 2, 3]] ∧
    ([[1, 2, 3]] : List (List Nat)) ≠ [[2, 3]] := by
  exact ⟨by decide, by decide, by decide⟩

/-- Claim C4 amended: for a non-erroring callback and in-bounds cursors, a
write shorter than the capacity passes each contiguous committed run to the
callback exactly (the whole input when it fits without wrapping, otherwise
the pre-wrap prefix and then the post-wrap suffix), but a write of length at
least the capacity invokes the callback once with the entire input `p`, not
with just the stored last-capacity items. -/
theorem c4_filter_segments_amended {T : Type} (r : RingFilter T) (p : List T)
    (hfn : ∀ l, r.fn l = none) (hw : r.write ≤ r.items.length) :
    (r.items.length ≤ p.length → (RingFilter.Write r p).segs = [p]) ∧
    (p.length < r.items.length → r.write + p.length ≤ r.items.length →
      (RingFilter.Write r p).segs = [p]) ∧
    (p.length < r.items.length → r.items.length < r.write + p.length →
      (RingFilter.Write r p).segs =
        [p.take (r.items.length - r.write), p.drop (r.items.length - r.write)]) := by
  refine ⟨?_, ?_, ?_⟩
  · intro hge
    simp [RingFilter.Write, if_neg (by omega : ¬ p.length < r.items.length), hfn]
  · intro hlt hin
    simp only [RingFilter.Write, if_pos hlt, RingFilter.writeWithinCapacity, if_pos hin,
      RingFilter.writeWithinBounds, hfn, Option.isSome_none, Bool.false_eq_true, if_false]
    rw [goSlice_goCopy _ _ _ _ (Nat.le_add_right _ _) hin (by omega)]
    rw [show r.write + p.length - r.write = p.length from by omega, List.take_length]
  · intro hlt hout
    have hlen1 : ((goCopy r.items r.write r.items.length p).1).length = r.items.length :=
      goCopy_fst_length _ _ _ _ hw (Nat.le_refl _)
    have he : (r.write + p.length) % r.items.length
        = r.write + p.length - r.items.length := by
      rw [Nat.mod_eq_sub_mod (by omega)]
      exact Nat.mod_eq_of_lt (by omega)
    have hk1 : (goCopy r.items r.write r.items.length p).2
        = r.items.length - r.write := by
      rw [goCopy_snd]
      exact Nat.min_eq_left (by omega)
    have hseg1 : goSlice (goCopy r.items r.write r.items.length p).1
        r.write r.items.length = p.take (r.items.length - r.write) :=
      goSlice_goCopy _ _ _ _ hw (Nat.le_refl _) (by omega)
    have hseg2 : goSlice (goCopy (goCopy r.items r.write r.items.length p).1 0
        ((r.write + p.length) % r.items.length)
        (p.drop (goCopy r.items r.write r.items.length p).2)).1 0
        ((r.write + p.length) % r.items.length)
        = p.drop (r.items.length - r.write) := by
      rw [he, hk1]
      have hd : (p.drop (r.items.length - r.write)).length
          = r.write + p.length - r.items.length := by
        rw [List.length_drop]
        omega
      rw [goSlice_goCopy _ _ _ _ (Nat.zero_le _) (by rw [hlen1]; omega) (by omega)]
      rw [Nat.sub_zero, List.take_of_length_le (by omega)]
    simp only [RingFilter.Write, if_pos hlt, RingFilter.writeWithinCapacity,
      if_neg (by omega : ¬ r.write + p.length ≤ r.items.length), RingFilter.writeWrapped,
      hfn, Option.isSome_none, Bool.false_eq_true, if_false]
    rw [hseg1, hseg2]

/-- Witness for `c4_filter_segments_amended` at a fresh capacity-3 filter
with the installed no-op callback and the 4-item input `[1, 2, 3, 4]`. -/
theorem c4_filter_segments_amended_witness :
    (∀ l : List Nat, (RingFilter.NewRingFilter Nat 3 none).fn l = none) ∧
    (RingFilter.NewRingFilter Nat 3 none).write ≤
      (RingFilter.NewRingFilter Nat 3 none).items.length ∧
    (((RingFilter.NewRingFilter Nat 3 none).items.length ≤ ([1, 2, 3, 4] : List Nat).length →
      (RingFilter.Write (RingFilter.NewRingFilter Nat 3 none) [1, 2, 3, 4]).segs
        = [[1, 2, 3, 4]]) ∧
    (([1, 2, 3, 4] : List Nat).length < (RingFilter.NewRingFilter Nat 3 none).items.length →
      (RingFilter.NewRingFilter Nat 3 none).write + ([1, 2, 3, 4] : List Nat).length ≤
        (RingFilter.NewRingFilter Nat 3 none).items.length →
      (RingFilter.Write (RingFilter.NewRingFilter Nat 3 none) [1, 2, 3, 4]).segs
        = [[1, 2, 3, 4]]) ∧
    (([1, 2, 3, 4] : List Nat).length < (RingFilter.NewRingFilter Nat 3 none).items.length →
      (RingFilter.NewRingFilter Nat 3 none).items.length <
        (RingFilter.NewRingFilter Nat 3 none).write + ([1, 2, 3, 4] : List Nat).length →
      (RingFilter.Write (RingFilter.NewRingFilter Nat 3 none) [1, 2, 3, 4]).segs
        = [([1, 2, 3, 4] : List Nat).take ((RingFilter.NewRingFilter Nat 3 none).items.length -
              (RingFilter.NewRingFilter Nat 3 none).write),
           ([1, 2, 3, 4] : List Nat).drop ((RingFilter.NewRingFilter Nat 3 none).items.length -
              (RingFilter.NewRingFilter Nat 3 none).write)])) :=
  ⟨fun _ => rfl, by decide, c4_filter_segments_amended _ _ (fun _ => rfl) (by decide)⟩

/-- Claim C5 evaluated at the failing input: a capacity-4 `RingFilter` whose
callback always returns `filterErr 7`, fed by a producer whose first read
delivers two items with a `nil` error.  `ReadFrom` invokes the callback,
which rejects with `filterErr 7`; the loop aborts — but the returned error
is the producer's `nil`, not the callback's error (`return n, err` instead
of `return n, errFilter`), so the caller sees no error at all. -/
theorem c5_readFrom_filter_error_eval :
    (RingFilter.NewRingFilter Nat 4 (some (fun _ => some (GoError.filterErr 7)))).fn [5, 6]
      = some (GoError.filterErr 7) ∧
    (RingFilter.ReadFrom
        (RingFilter.NewRingFilter Nat 4 (some (fun _ => some (GoError.filterErr 7))))
        [([5, 6], none)]).map (fun t => (t.n, t.err, t.segs)) = some (2, none, [[5, 6]]) ∧
    ((none : Option GoError) ≠ some (GoError.filterErr 7)) := by
  exact ⟨rfl, by decide, by decide⟩

/-- Claim C6 evaluated at the failing input: a fresh capacity-3 buffer is
empty (`read == write`, nothing written), yet `Read` into a length-3
destination returns `(3, nil)` — three stale zero items and no end-of-data
signal (the code's `Read` has no `io.EOF` return at all) — and `Read` into a
zero-length destination panics on the slice bound `p[:3]` instead of
returning zero with no error. -/
theorem c6_read_empty_eval :
    (RingBuffer.NewRingBuffer Nat 3).read = (RingBuffer.NewRingBuffer Nat 3).write ∧
    (RingBuffer.Read (RingBuffer.NewRingBuffer Nat 3) [9, 9, 9]).map (fun t => (t.n, t.err))
      = some (3, none) ∧
    (some ((3 : Nat), (none : Option GoError)) ≠ some (0, some GoError.eof)) ∧
    RingBuffer.Read (RingBuffer.NewRingBuffer Nat 3) ([] : List Nat) = none := by
  exact ⟨by decide, by decide, by decide, by decide⟩

/-- Claim C7: at capacity 5, a single `Write` of the 11-character sequence
"some string" leaves exactly the last 5 characters "tring" in storage with
`Len() = 5`, and a subsequent `Read` of 5 items returns "tring". -/
theorem c7_capacity5_tring :
    (RingBuffer.Write (RingBuffer.NewRingBuffer Char 5) "some string".toList).rb.items
      = "tring".toList ∧
    RingBuffer.Len (RingBuffer.Write (RingBuffer.NewRingBuffer Char 5)
      "some string".toList).rb = 5 ∧
    (RingBuffer.Read (RingBuffer.Write (RingBuffer.NewRingBuffer Char 5)
        "some string".toList).rb (List.replicate 5 ' ')).map (fun t => (t.dest, t.n))
      = some ("tring".toList, 5) := by
  exact ⟨by decide, by decide, by decide⟩

/-- Claim C8 evaluated at the failing inputs: `Seek`'s body is commented out
in the source, so `Seek(1, 99)` (unrecognized whence 99) and `Seek(-7, 0)`
(a position that would be negative before wrapping) both return `(0, nil)`
with the buffer untouched — never `ErrRingInvalidWhence` or
`ErrRingNegativePosition`, though both error values are declared. -/
theorem c8_seek_stub_eval :
    RingBuffer.Seek (RingBuffer.NewRingBuffer Nat 3) 1 99
      = (RingBuffer.NewRingBuffer Nat 3, 0, none) ∧
    RingBuffer.Seek (RingBuffer.NewRingBuffer Nat 3) (-7) 0
      = (RingBuffer.NewRingBuffer Nat 3, 0, none) ∧
    ((none : Option GoError) ≠ some GoError.ringInvalidWhence) ∧
    ((none : Option GoError) ≠ some GoError.ringNegativePosition) := by
  exact ⟨by decide, by decide, by decide, by decide⟩

/-- Claim C9 is false on the code: from a fresh capacity-3 buffer, writing
two items and then one more item goes through `writeWithinBounds` with
`end = 3`, leaving the reachable state with `write = 3 = capacity`, outside
the claimed half-open range `[0, N)`. -/
theorem c9_cursor_eq_capacity_counterexample :
    Reachable ((RingBuffer.Write
        (RingBuffer.Write (RingBuffer.NewRingBuffer Nat 3) [10, 11]).rb [12]).rb) ∧
    (RingBuffer.Write
        (RingBuffer.Write (RingBuffer.NewRingBuffer Nat 3) [10, 11]).rb [12]).rb.write = 3 ∧
    RingBuffer.Cap (RingBuffer.Write
        (RingBuffer.Write (RingBuffer.NewRingBuffer Nat 3) [10, 11]).rb [12]).rb = 3 := by
  refine ⟨Reachable.step (Reachable.step (Reachable.base 3) (Step.write _ _))
    (Step.write _ _), by decide, by decide⟩

/-- Claim C9 amended: every reachable state keeps both cursors in the closed
range `[0, N]` with `N = Cap ≥ 1`; the endpoint `N` itself is reachable (see
the counterexample), so the half-open bound `[0, N)` does not hold. -/
theorem c9_cursor_bounds_amended {T : Type} [Inhabited T] (r : RingBuffer T)
    (h : Reachable r) :
    1 ≤ RingBuffer.Cap r ∧ r.read ≤ RingBuffer.Cap r ∧ r.write ≤ RingBuffer.Cap r :=
  reachable_bounded h

/-- Witness for `c9_cursor_bounds_amended` at the freshly constructed
capacity-3 buffer. -/
theorem c9_cursor_bounds_amended_witness :
    1 ≤ RingBuffer.Cap (RingBuffer.NewRingBuffer Nat 3) ∧
    (RingBuffer.NewRingBuffer Nat 3).read ≤ RingBuffer.Cap (RingBuffer.NewRingBuffer Nat 3) ∧
    (RingBuffer.NewRingBuffer Nat 3).write ≤ RingBuffer.Cap (RingBuffer.NewRingBuffer Nat 3) :=
  c9_cursor_bounds_amended _ (Reachable.base 3)

/-- Claim C10: whenever `read ≥ write` and the destination length is
strictly less than `len(items) - read`, `Read` slices the destination as
`p[:len(items)-read]`, an out-of-range bound, and panics (`none`). -/
theorem c10_read_short_dest_panics {T : Type} (r : RingBuffer T) (p : List T)
    (h1 : r.write ≤ r.read) (h2 : p.length < r.items.length - r.read) :
    RingBuffer.Read r p = none := by
  simp only [RingBuffer.Read]
  rw [if_pos h1, if_pos h2]

/-- Witness for `c10_read_short_dest_panics`: the freshly constructed
capacity-3 buffer with a length-1 destination. -/
theorem c10_read_short_dest_panics_witness :
    (RingBuffer.NewRingBuffer Nat 3).write ≤ (RingBuffer.NewRingBuffer Nat 3).read ∧
    ([9] : List Nat).length <
      (RingBuffer.NewRingBuffer Nat 3).items.length - (RingBuffer.NewRingBuffer Nat 3).read ∧
    RingBuffer.Read (RingBuffer.NewRingBuffer Nat 3) [9] = none :=
  ⟨by decide, by decide, c10_read_short_dest_panics _ _ (by decide) (by decide)⟩
